import Mathlib

/-!
Verification development for the Northwestern CTEC parser
(`backend/app/parsing/ctec/ctec_parser.py`).

The parser's pure, text-level logic is shallowly embedded below.  Python
regular expressions are hand-compiled into explicit backtracking matchers over
`List Char`, faithful to CPython `re` semantics (leftmost search position,
lazy vs greedy quantifiers, optional groups tried greedily first) for the
specific patterns the source compiles.  Python dictionaries are modelled as
association lists with insert-or-update-in-place semantics, which preserves
CPython's insertion-order iteration.  File I/O, PDF rendering and the OCR
engine itself are outside the embedding: the functions below receive the
extracted raw text and the concatenated OCR text as inputs, exactly as the
corresponding private methods of `CTECParser` do.
-/

/-- The six ASCII characters matched by Python's `\s` class (and stripped by
`str.strip`).  Non-ASCII whitespace is not produced by the inputs at hand. -/
def pySpace (c : Char) : Bool :=
  c = ' ' || c = '\t' || c = '\n' || c = '\r' || c = '\x0b' || c = '\x0c'

/-- Python `str.strip()`. -/
def pyStrip (s : String) : String :=
  String.mk (((s.data.dropWhile pySpace).reverse.dropWhile pySpace).reverse)

/-- Remove an exact (case-sensitive) literal from the front, as matching a
literal fragment of a regex does. -/
def stripPfx : List Char → List Char → Option (List Char)
  | [], cs => some cs
  | _ :: _, [] => none
  | l :: ls, c :: cs => if l = c then stripPfx ls cs else none

/-- Case-insensitive literal match, as under the `(?i)` flag. -/
def caselessLit : List Char → List Char → Option (List Char)
  | [], cs => some cs
  | _ :: _, [] => none
  | l :: ls, c :: cs => if l.toLower = c.toLower then caselessLit ls cs else none

/-- Value of a digit string, as Python `int` on a `\d+` capture. -/
def natOfDigits (ds : List Char) : Nat :=
  ds.foldl (fun n c => n * 10 + (c.toNat - 48)) 0

/-- Index of the first occurrence of `pat` (Python `str.find`), scanning from
position `i`. -/
def findSubAux (pat : List Char) : Nat → List Char → Option Nat
  | i, [] => if pat.isEmpty then some i else none
  | i, c :: rest =>
    if pat.isPrefixOf (c :: rest) then some i else findSubAux pat (i + 1) rest

/-- Python `haystack.find(needle)` returning `none` for `-1`. -/
def findSubIdx (hay pat : String) : Option Nat :=
  findSubAux pat.data 0 hay.data

/-- Python `haystack.find(needle, start)`. -/
def findSubIdxFrom (hay pat : String) (start : Nat) : Option Nat :=
  (findSubAux pat.data 0 (hay.data.drop start)).map (· + start)

/-- Python slice `s[a:b]` (character indices). -/
def sliceChars (s : String) (a b : Nat) : String :=
  String.mk ((s.data.drop a).take (b - a))

/-- Python `s.split(sep)` for a single-character separator (every occurrence
splits, adjacent separators give empty fields). -/
def splitOnCharAux (sep : Char) (cur : List Char) : List Char → List String
  | [] => [String.mk cur.reverse]
  | c :: rest =>
    if c = sep then String.mk cur.reverse :: splitOnCharAux sep [] rest
    else splitOnCharAux sep (c :: cur) rest

def splitOnChar (sep : Char) (s : String) : List String :=
  splitOnCharAux sep [] s.data

def splitOnNl (s : String) : List String := splitOnChar '\n' s

/-- Python `str.splitlines()` restricted to the `\n`, `\r\n` and `\r`
boundaries that PDF text extraction produces; like Python, a terminal
boundary does not yield a trailing empty line. -/
def splitlinesAux (cur : List Char) : List Char → List String
  | [] => if cur.isEmpty then [] else [String.mk cur.reverse]
  | '\r' :: '\n' :: rest => String.mk cur.reverse :: splitlinesAux [] rest
  | '\r' :: rest => String.mk cur.reverse :: splitlinesAux [] rest
  | '\n' :: rest => String.mk cur.reverse :: splitlinesAux [] rest
  | c :: rest => splitlinesAux (c :: cur) rest

def pySplitlines (s : String) : List String := splitlinesAux [] s.data

/-- `CTECParser._clean_text`: strip every line, drop empty lines, join the
rest with single spaces. -/
def clean_text (text : String) : String :=
  if text = "" then ""
  else String.intercalate " " (((pySplitlines text).map pyStrip).filter (· ≠ ""))

/-! ### Course-identity patterns

`course_pattern1 = r"Student Report for (.*?)\((.*?)\)\s*\(([^)]+)\)"` and
`course_pattern2 = r"Student Report for ([^:]+):\s*(.*?)\s*\(([^)]+)\)"`,
searched with `re.search` (leftmost position wins; at a position, lazy stars
take the shortest extension for which the remainder of the pattern matches,
and `.` does not match a newline). -/

def studentReportLit : List Char := "Student Report for ".data

/-- Trailing part `\s*\(([^)]+)\)` shared by both course patterns: maximal
whitespace, an opening paren, a non-empty run of non-`)` characters (the
greedy class stops exactly at the first `)`), and the closing paren. -/
def courseTail (cs : List Char) : Option String :=
  match cs.dropWhile pySpace with
  | '(' :: rest =>
    let g3 := rest.takeWhile (· ≠ ')')
    if g3.isEmpty then none
    else
      match rest.drop g3.length with
      | ')' :: _ => some (String.mk g3)
      | _ => none
  | _ => none

/-- Lazy group 2 of pattern 1, `\((.*?)\)` followed by `courseTail`: try to
close at each `)` (shortest first); on failure the `)` itself is consumed by
`.` and the group grows.  A newline stops the group (no `re.S` flag). -/
def p1g2 (acc : List Char) : List Char → Option (String × String)
  | [] => none
  | c :: rest =>
    if c = ')' then
      match courseTail rest with
      | some g3 => some (String.mk acc.reverse, g3)
      | none => p1g2 (c :: acc) rest
    else if c = '\n' then none
    else p1g2 (c :: acc) rest

/-- Lazy group 1 of pattern 1, `(.*?)\(` followed by the rest: try to stop at
each `(` (shortest first); on failure the `(` is consumed by `.`. -/
def p1g1 (acc : List Char) : List Char → Option (String × String × String)
  | [] => none
  | c :: rest =>
    if c = '(' then
      match p1g2 [] rest with
      | some (g2, g3) => some (String.mk acc.reverse, g2, g3)
      | none => p1g1 (c :: acc) rest
    else if c = '\n' then none
    else p1g1 (c :: acc) rest

def matchP1At (cs : List Char) : Option (String × String × String) :=
  match stripPfx studentReportLit cs with
  | some rest => p1g1 [] rest
  | none => none

def searchP1Aux (i : Nat) : List Char → Option (Nat × String × String × String)
  | [] => none
  | c :: rest =>
    match matchP1At (c :: rest) with
    | some (g1, g2, g3) => some (i, g1, g2, g3)
    | none => searchP1Aux (i + 1) rest

/-- `course_pattern1.search`: start index and the three captured groups. -/
def searchP1 (text : String) : Option (Nat × String × String × String) :=
  searchP1Aux 0 text.data

/-- Lazy group 2 of pattern 2, `(.*?)\s*\(([^)]+)\)`: at each prefix length
(shortest first) the trailing whitespace-then-paren tail is attempted. -/
def p2g2 (acc : List Char) : List Char → Option (String × String)
  | [] => none
  | c :: rest =>
    match courseTail (c :: rest) with
    | some g3 => some (String.mk acc.reverse, g3)
    | none => if c = '\n' then none else p2g2 (c :: acc) rest

def matchP2At (cs : List Char) : Option (String × String × String) :=
  match stripPfx studentReportLit cs with
  | none => none
  | some rest =>
    let g1 := rest.takeWhile (· ≠ ':')
    if g1.isEmpty then none
    else
      match rest.drop g1.length with
      | ':' :: rest2 =>
        match p2g2 [] (rest2.dropWhile pySpace) with
        | some (g2, g3) => some (String.mk g1, g2, g3)
        | none => none
      | _ => none

def searchP2Aux (i : Nat) : List Char → Option (Nat × String × String × String)
  | [] => none
  | c :: rest =>
    match matchP2At (c :: rest) with
    | some (g1, g2, g3) => some (i, g1, g2, g3)
    | none => searchP2Aux (i + 1) rest

/-- `course_pattern2.search`: start index and the three captured groups. -/
def searchP2 (text : String) : Option (Nat × String × String × String) :=
  searchP2Aux 0 text.data

/-- `CourseInfo` dataclass.  The Python field `section` is a reserved word in
Lean and is rendered `sect`. -/
structure CourseInfo where
  code : String
  title : String
  sect : String
  instructor : String
  quarter : String
  year : Nat
  audience_size : Option Nat := none
  response_count : Option Nat := none
deriving DecidableEq

/-- Python `full_code.rsplit('_', 1)` guarded by `'_' in full_code`, as done
in both branches of `_extract_course_info`. -/
def splitCodeBySection (full : String) : String × String :=
  if full.data.any (· = '_') then
    let rev := full.data.reverse
    let sectRev := rev.takeWhile (· ≠ '_')
    (String.mk ((rev.drop (sectRev.length + 1)).reverse), String.mk sectRev.reverse)
  else (full, "")

/-- `item.split(':')[0]`. -/
def beforeColon (item : String) : String := String.mk (item.data.takeWhile (· ≠ ':'))

/-- Group processing for a pattern-1 match in `_extract_course_info`. -/
def processPattern1 (g1 g2 g3 : String) : Except String CourseInfo :=
  let title := pyStrip g1
  let codes_part := pyStrip g2
  let instructor := pyStrip g3
  let codes := ((splitOnChar ',' codes_part).filter (fun item => item.data.any (· = ':'))).map
    (fun item => pyStrip (beforeColon item))
  match codes with
  | [] => .error "Error processing course info match: list index out of range"
  | full_code :: _ =>
    let p := splitCodeBySection full_code
    .ok { code := p.1, title := title, sect := p.2, instructor := instructor,
          quarter := "", year := 0 }

/-- Group processing for a pattern-2 match in `_extract_course_info`. -/
def processPattern2 (g1 g2 g3 : String) : Except String CourseInfo :=
  let code := pyStrip g1
  let title := pyStrip g2
  let instructor := pyStrip g3
  let p := splitCodeBySection code
  .ok { code := p.1, title := title, sect := p.2, instructor := instructor,
        quarter := "", year := 0 }

/-- `CTECParser._extract_course_info`: try both patterns, keep the match that
starts earlier (ties go to pattern 1), fail if neither matches. -/
def extract_course_info (text : String) : Except String CourseInfo :=
  if text = "" then .error "Empty text provided for course info extraction"
  else
    match searchP1 text, searchP2 text with
    | some (s1, a1, b1, c1), some (s2, a2, b2, c2) =>
      if s1 ≤ s2 then processPattern1 a1 b1 c1 else processPattern2 a2 b2 c2
    | some (_, a1, b1, c1), none => processPattern1 a1 b1 c1
    | none, some (_, a2, b2, c2) => processPattern2 a2 b2 c2
    | none, none => .error "Could not match course info pattern in text"

/-! ### Term pattern

`r"Course and Teacher Evaluations CTEC (Spring|Fall|Winter|Summer) (\d{4})"`. -/

def termLit : List Char := "Course and Teacher Evaluations CTEC ".data

def seasonNames : List String := ["Spring", "Fall", "Winter", "Summer"]

def trySeasons : List String → List Char → Option (String × List Char)
  | [], _ => none
  | s :: ss, cs =>
    match stripPfx s.data cs with
    | some rest => some (s, rest)
    | none => trySeasons ss cs

/-- Attempt the full term pattern at the current position: the literal, one of
the four season alternatives, a literal space, and exactly four digits. -/
def matchTermAt (cs : List Char) : Option (String × Nat) :=
  match stripPfx termLit cs with
  | none => none
  | some rest =>
    match trySeasons seasonNames rest with
    | none => none
    | some (season, rest2) =>
      match rest2 with
      | ' ' :: ds =>
        let year := ds.take 4
        if year.length = 4 && year.all Char.isDigit then
          some (season, natOfDigits year)
        else none
      | _ => none

def searchTermAux : List Char → Option (String × Nat)
  | [] => none
  | c :: rest =>
    match matchTermAt (c :: rest) with
    | some r => some r
    | none => searchTermAux rest

def searchTerm (text : String) : Option (String × Nat) := searchTermAux text.data

/-- `CTECParser._extract_term_info`: raises `CTECParsingError` when the term
pattern has no match. -/
def extract_term_info (text : String) : Except String (String × Nat) :=
  match searchTerm text with
  | some r => .ok r
  | none => .error "Could not extract term information"

/-! ### Audience / response metadata

`_extract_audience_and_response_metadata` works on the raw text split on
`'\n'`: it records the *last* line fully matching the case-insensitive header
patterns `^Courses?\s+Audience\s*:\s*$` and `^Responses?\s+Received\s*:\s*$`
(applied to the stripped line), then scans up to ten lines after the later
header for up to two bare-integer lines `^\s*(\d+)\s*$`. -/

/-- Header shape `word1` + optional `s` + `\s+` + `word2` + `\s*` + `:` +
`\s*` + end, case-insensitively, on an already-stripped line. -/
def headerShape (word1 word2 : List Char) (cs : List Char) : Bool :=
  match caselessLit word1 cs with
  | none => false
  | some r0 =>
    let r1 := match r0 with
      | c :: rest => if c.toLower = 's' then rest else r0
      | [] => r0
    match r1 with
    | c :: _ =>
      if pySpace c then
        match (r1.dropWhile pySpace) with
        | r2 =>
          match caselessLit word2 r2 with
          | none => false
          | some r3 =>
            match r3.dropWhile pySpace with
            | ':' :: r4 => (r4.dropWhile pySpace).isEmpty
            | _ => false
      else false
    | [] => false

def isAudienceHeader (line : String) : Bool :=
  headerShape "course".data "audience".data (pyStrip line).data

def isResponseHeader (line : String) : Bool :=
  headerShape "response".data "received".data (pyStrip line).data

/-- Index of the last line satisfying `p` (the Python loop overwrites on each
match). -/
def lastIdxSat (p : String → Bool) (lines : List String) : Option Nat :=
  (lines.foldl (fun (st : Nat × Option Nat) l =>
    (st.1 + 1, if p l then some st.1 else st.2)) (0, none)).2

/-- `re.match(r'^\s*(\d+)\s*$', line)` as an optional value. -/
def bareIntLine (line : String) : Option Nat :=
  let l1 := line.data.dropWhile pySpace
  let ds := l1.takeWhile Char.isDigit
  if ds.isEmpty then none
  else if (l1.drop ds.length).all pySpace then some (natOfDigits ds) else none

/-- The up-to-two integers collected from the ten-line window after `start`. -/
def windowNums (lines : List String) (start : Nat) : List Nat :=
  (((lines.drop start).take 10).filterMap bareIntLine).take 2

/-- `CTECParser._extract_audience_and_response_metadata`. -/
def extract_audience_and_response_metadata (raw_text : String) :
    Option Nat × Option Nat :=
  let lines := splitOnNl raw_text
  match lastIdxSat isAudienceHeader lines, lastIdxSat isResponseHeader lines with
  | some a, some r =>
    match windowNums lines (max a r + 1) with
    | n1 :: n2 :: _ =>
      if a < r then (some n1, some n2) else (some n2, some n1)
    | _ => (none, none)
  | _, _ => (none, none)

/-! ### Comment extraction -/

/-- One match attempt of the lazy middle of
`re.sub(r"Student Report for .*?\d+/\d+", "", _, flags=re.DOTALL)`:
`.*?` (any character, shortest first) followed by `\d+/\d+`; returns the
remainder after the match. -/
def pageHeaderTail : List Char → Option (List Char)
  | [] => none
  | c :: rest =>
    let here : Option (List Char) :=
      if c.isDigit then
        let d1 := (c :: rest).takeWhile Char.isDigit
        match (c :: rest).drop d1.length with
        | '/' :: r2 =>
          let d2 := r2.takeWhile Char.isDigit
          if d2.isEmpty then none else some (r2.drop d2.length)
        | _ => none
      else none
    match here with
    | some r => some r
    | none => pageHeaderTail rest

def pageHeaderMatchAt (cs : List Char) : Option (List Char) :=
  match stripPfx studentReportLit cs with
  | some rest => pageHeaderTail rest
  | none => none

/-- Delete every page-header fragment (global `re.sub` with replacement
`""`); fuelled by the text length, which bounds the number of steps. -/
def subPageHeadersAux : Nat → List Char → List Char
  | 0, cs => cs
  | _ + 1, [] => []
  | fuel + 1, c :: rest =>
    match pageHeaderMatchAt (c :: rest) with
    | some rem => subPageHeadersAux fuel rem
    | none => c :: subPageHeadersAux fuel rest

def subPageHeaders (s : String) : String :=
  String.mk (subPageHeadersAux s.data.length s.data)

/-- First character is an uppercase letter (`line[0].isupper()`). -/
def lineStartsUpper (line : String) : Bool :=
  match line.data with
  | c :: _ => c.isUpper
  | [] => false

/-- One iteration of the comment-grouping loop: an uppercase-starting
non-empty line flushes a non-empty accumulator and starts a new comment;
every other line joins the accumulator. -/
def commentStep (st : List String × List String) (line : String) :
    List String × List String :=
  if line ≠ "" && lineStartsUpper line && !st.2.isEmpty then
    (st.1 ++ [String.intercalate " " st.2], [line])
  else (st.1, st.2 ++ [line])

/-- The final flush of the comment-grouping loop (`if current: ...`). -/
def groupFlush (st : List String × List String) : List String :=
  if st.2.isEmpty then st.1 else st.1 ++ [String.intercalate " " st.2]

/-- The grouping phase of `_extract_comments`, on the non-empty stripped
lines of the comment span, flushing the final accumulator. -/
def groupCommentLines (lines : List String) : List String :=
  groupFlush (lines.foldl commentStep ([], []))

def commentAnchor : String :=
  "Please summarize your reaction to this course focusing on the aspects that were most important to you."

/-- `CTECParser._extract_comments` on the raw text. -/
def extract_comments (raw_text : String) : List String :=
  match findSubIdx raw_text commentAnchor with
  | none => []
  | some s0 =>
    let start := s0 + commentAnchor.length
    let stop := match findSubIdxFrom raw_text "DEMOGRAPHICS" start with
      | some e => e
      | none => raw_text.length
    let commentText := pyStrip (sliceChars raw_text start stop)
    let commentText := commentText.replace "Comments" ""
    let commentText := subPageHeaders commentText
    let lines := ((splitOnNl commentText).map pyStrip).filter (· ≠ "")
    groupCommentLines lines

/-! ### OCR rating-distribution patterns

`dist_pattern = r"(?i)([1-6])(?:[-–—]\s*(?:Very\s+Low|Very\s+High|[A-Za-z\s–—-]*?))?\s*\((\d+)\)"`
(`findall`), `total_pattern = r"(?i)(?:total|\[?\s*total\s*\]?)\s*\((\d+)\)"`
(`search`), and the two alternative patterns of
`_try_alternative_distribution_extraction`. -/

/-- Rating dictionaries `{rating: count}` as insertion-ordered association
lists. -/
abbrev RatingDist := List (Nat × Nat)

/-- Python dict assignment `d[k] = v`: update in place if the key exists
(keeping its position, as CPython does), else append. -/
def dInsert {α β : Type} [DecidableEq α] (d : List (α × β)) (k : α) (v : β) :
    List (α × β) :=
  if d.any (fun p => p.1 = k) then
    d.map (fun p => if p.1 = k then (k, v) else p)
  else d ++ [(k, v)]

/-- `{int(k): int(v) for k, v in pairs}`. -/
def distFromPairs (ps : List (Nat × Nat)) : RatingDist :=
  ps.foldl (fun d p => dInsert d p.1 p.2) []

/-- `sum(distribution.values())`. -/
def distSum (d : RatingDist) : Nat := (d.map Prod.snd).sum

def ratingDigitVal (c : Char) : Option Nat :=
  if '1' ≤ c && c ≤ '6' then some (c.toNat - 48) else none

def dashChar (c : Char) : Bool := c = '-' || c = '–' || c = '—'

/-- The class `[A-Za-z\s–—-]` of the lazy alternative inside `dist_pattern`. -/
def distMidChar (c : Char) : Bool :=
  c.isAlpha || pySpace c || c = '–' || c = '—' || c = '-'

/-- Tail `\s*\((\d+)\)`: maximal whitespace, `(`, a maximal digit run, `)`.
Returns the count and the remainder after the match. -/
def distTail (cs : List Char) : Option (Nat × List Char) :=
  match cs.dropWhile pySpace with
  | '(' :: rest =>
    let ds := rest.takeWhile Char.isDigit
    if ds.isEmpty then none
    else
      match rest.drop ds.length with
      | ')' :: rem => some (natOfDigits ds, rem)
      | _ => none
  | _ => none

/-- `Very\s+Low` / `Very\s+High` (case-insensitive): `very`, at least one
whitespace character, then `word`. -/
def veryWord (word : List Char) (cs : List Char) : Option (List Char) :=
  match caselessLit "very".data cs with
  | none => none
  | some r1 =>
    match r1 with
    | c :: _ =>
      if pySpace c then caselessLit word (r1.dropWhile pySpace) else none
    | [] => none

/-- The lazy alternative `[A-Za-z\s–—-]*?` followed by `distTail`: the tail is
attempted before each extension of the star. -/
def distLazyScan : List Char → Option (Nat × List Char)
  | [] => none
  | c :: rest =>
    match distTail (c :: rest) with
    | some r => some r
    | none => if distMidChar c then distLazyScan rest else none

/-- After `[-–—]\s*`, the three alternatives of the optional descriptive
group, each completed by `distTail`, in the order the regex tries them. -/
def distAfterDash (cs : List Char) : Option (Nat × List Char) :=
  match veryWord "low".data cs with
  | some r =>
    match distTail r with
    | some x => some x
    | none => distAfterDashHigh cs
  | none => distAfterDashHigh cs
where
  distAfterDashHigh (cs : List Char) : Option (Nat × List Char) :=
    match veryWord "high".data cs with
    | some r =>
      match distTail r with
      | some x => some x
      | none => distLazyScan cs
    | none => distLazyScan cs

/-- One attempt of `dist_pattern` at the current position. -/
def matchDistAt : List Char → Option (Nat × Nat × List Char)
  | [] => none
  | c :: rest =>
    match ratingDigitVal c with
    | none => none
    | some r =>
      match rest with
      | d :: rest2 =>
        if dashChar d then
          match distAfterDash (rest2.dropWhile pySpace) with
          | some (n, rem) => some (r, n, rem)
          | none => none
        else
          match distTail rest with
          | some (n, rem) => some (r, n, rem)
          | none => none
      | [] => none

/-- `dist_pattern.findall`: non-overlapping matches, scanning left to right.
Each match consumes at least four characters, so the fuel `cs.length` is
never exhausted before the scan ends. -/
def distFindallAux : Nat → List Char → List (Nat × Nat)
  | 0, _ => []
  | _ + 1, [] => []
  | fuel + 1, c :: rest =>
    match matchDistAt (c :: rest) with
    | some (k, v, rem) => (k, v) :: distFindallAux fuel rem
    | none => distFindallAux fuel rest

def dist_pattern_findall (text : String) : List (Nat × Nat) :=
  distFindallAux text.data.length text.data

/-- `total_pattern` at a position: alternative `total`, then alternative
`\[?\s*total\s*\]?`, each completed by `\s*\((\d+)\)`. -/
def matchTotalAt (cs : List Char) : Option Nat :=
  match caselessLit "total".data cs with
  | some r =>
    match distTail r with
    | some (n, _) => some n
    | none => matchTotalBracket cs
  | none => matchTotalBracket cs
where
  matchTotalBracket (cs : List Char) : Option Nat :=
    let cs1 := match cs with
      | '[' :: r => r
      | _ => cs
    match caselessLit "total".data (cs1.dropWhile pySpace) with
    | none => none
    | some r =>
      let r1 := match r.dropWhile pySpace with
        | ']' :: r2 => r2
        | other => other
      match distTail r1 with
      | some (n, _) => some n
      | none => none

def searchTotalAux : List Char → Option Nat
  | [] => none
  | c :: rest =>
    match matchTotalAt (c :: rest) with
    | some n => some n
    | none => searchTotalAux rest

/-- `total_pattern.search`, returning the captured total. -/
def searchTotal (text : String) : Option Nat := searchTotalAux text.data

/-! Alternative pattern 1: `([1-6])[^\d]*?[\(\[\{](\d+)[\)\]\}]` (`findall`). -/

def openBr (c : Char) : Bool := c = '(' || c = '[' || c = '\x7b'

def closeBr (c : Char) : Bool := c = ')' || c = ']' || c = '\x7d'

/-- Lazy `[^\d]*?` followed by bracket, digits, bracket: the bracket branch is
attempted before each extension; a digit blocks the lazy class. -/
def alt1Tail : List Char → Option (Nat × List Char)
  | [] => none
  | c :: rest =>
    let here : Option (Nat × List Char) :=
      if openBr c then
        let ds := rest.takeWhile Char.isDigit
        if ds.isEmpty then none
        else
          match rest.drop ds.length with
          | c2 :: rem => if closeBr c2 then some (natOfDigits ds, rem) else none
          | [] => none
      else none
    match here with
    | some r => some r
    | none => if c.isDigit then none else alt1Tail rest

def matchAlt1At : List Char → Option (Nat × Nat × List Char)
  | [] => none
  | c :: rest =>
    match ratingDigitVal c with
    | none => none
    | some r =>
      match alt1Tail rest with
      | some (n, rem) => some (r, n, rem)
      | none => none

def alt1FindallAux : Nat → List Char → List (Nat × Nat)
  | 0, _ => []
  | _ + 1, [] => []
  | fuel + 1, c :: rest =>
    match matchAlt1At (c :: rest) with
    | some (k, v, rem) => (k, v) :: alt1FindallAux fuel rem
    | none => alt1FindallAux fuel rest

def alt1Findall (text : String) : List (Nat × Nat) :=
  alt1FindallAux text.data.length text.data

/-! Alternative pattern 2:
`re.search(r"(?:^|\s)([1-6])(?:\s*[-–—]\s*\w+)?\s*[\(\[]?(\d+)[\)\]]?", line.strip())`
applied per line, keeping the first match of each line when the count passes
the `count < 1000` sanity check. -/

def isWordChar (c : Char) : Bool := c.isAlphanum || c = '_'

/-- Tail `\s*[\(\[]?(\d+)[\)\]]?` (the optional closer constrains nothing,
as the pattern is unanchored): an opening bracket, if taken, must be followed
by a digit, since the backtracked branch would place `\d` on the bracket. -/
def alt2Tail (cs : List Char) : Option Nat :=
  match cs.dropWhile pySpace with
  | c :: r =>
    if c = '(' || c = '[' then
      let ds := r.takeWhile Char.isDigit
      if ds.isEmpty then none else some (natOfDigits ds)
    else
      let ds := (c :: r).takeWhile Char.isDigit
      if ds.isEmpty then none else some (natOfDigits ds)
  | [] => none

/-- Greedy backtracking of `\w+`: try the full run, then give characters back
one at a time, never below one word character. -/
def alt2Shrink (wRev : List Char) (after : List Char) : Option Nat :=
  match alt2Tail after with
  | some n => some n
  | none =>
    match wRev with
    | [] => none
    | [_] => none
    | c :: wRev2 => alt2Shrink wRev2 (c :: after)

/-- One attempt of alternative pattern 2 just after the `(?:^|\s)` prefix. -/
def matchAlt2At : List Char → Option (Nat × Nat)
  | [] => none
  | c :: rest =>
    match ratingDigitVal c with
    | none => none
    | some r =>
      let viaGroup : Option Nat :=
        match rest.dropWhile pySpace with
        | d :: r2 =>
          if dashChar d then
            let r3 := r2.dropWhile pySpace
            let w := r3.takeWhile isWordChar
            if w.isEmpty then none
            else alt2Shrink w.reverse (r3.drop w.length)
          else none
        | [] => none
      match viaGroup with
      | some n => some (r, n)
      | none =>
        match alt2Tail rest with
        | some n => some (r, n)
        | none => none

def alt2SearchAux : List Char → Option (Nat × Nat)
  | [] => none
  | c :: rest =>
    if pySpace c then
      match matchAlt2At rest with
      | some p => some p
      | none => alt2SearchAux rest
    else alt2SearchAux rest

/-- `re.search` of alternative pattern 2 in a line: the `^` branch at position
zero, then a `\s`-preceded digit at every later position. -/
def alt2Search (cs : List Char) : Option (Nat × Nat) :=
  match matchAlt2At cs with
  | some p => some p
  | none => alt2SearchAux cs

/-- The per-line dictionary built by the second fallback of
`_try_alternative_distribution_extraction`. -/
def alt2Dist (text : String) : RatingDist :=
  (splitOnNl text).foldl
    (fun d line =>
      match alt2Search (pyStrip line).data with
      | some (r, n) =>
        if 1 ≤ r && r ≤ 6 && n < 1000 then dInsert d r n else d
      | none => d)
    []

/-- `CTECParser._try_alternative_distribution_extraction`: the bracket-style
pattern wins when it yields at least three ratings; otherwise the per-line
scan is consulted, with the same threshold. -/
def try_alternative_distribution_extraction (text : String) : Option RatingDist :=
  let pairs1 := alt1Findall text
  let viaP1 : Option RatingDist :=
    if !pairs1.isEmpty then
      let d1 := distFromPairs pairs1
      if 3 ≤ d1.length then some d1 else none
    else none
  match viaP1 with
  | some d1 => some d1
  | none =>
    let d2 := alt2Dist text
    if 3 ≤ d2.length then some d2 else none

/-- The message of the `CTECParsingError` raised on a total mismatch. -/
def mismatchMsg (fid : String) (ocr_total calculated : Nat) : String :=
  "OCR validation failed for " ++ fid ++ ": Total mismatch (OCR: " ++
    toString ocr_total ++ ", Calculated: " ++ toString calculated ++ ")"

/-- `CTECParser._extract_rating_distribution_from_question`. -/
def extract_rating_distribution_from_question (validate : Bool) (fid : String)
    (text : String) : Except String RatingDist :=
  let distribution := distFromPairs (dist_pattern_findall text)
  if validate then
    match searchTotal text with
    | some ocr_total =>
      let calculated := distSum distribution
      if ocr_total ≠ calculated then
        match try_alternative_distribution_extraction text with
        | some alt =>
          if distSum alt = ocr_total then .ok alt
          else .error (mismatchMsg fid ocr_total calculated)
        | none => .error (mismatchMsg fid ocr_total calculated)
      else .ok distribution
    | none => .ok distribution
  else .ok distribution

/-! ### Survey question blocks

`self.survey_questions` maps each question text to a block regex of the form
`N\.\s*<question text>.*?(?=M\.\s*<next word>)` searched with `re.S`
(so `.` matches newlines); the fifth block runs to the end of the text. -/

structure QuestionDef where
  key : String
  startDigit : Char
  startText : String
  stop : Option (Char × String)
deriving DecidableEq

def questionDefs : List QuestionDef := [
  { key := "Provide an overall rating of the instruction",
    startDigit := '1',
    startText := "Provide an overall rating of the instruction",
    stop := some ('2', "Provide") },
  { key := "Provide an overall rating of the course",
    startDigit := '2',
    startText := "Provide an overall rating of the course",
    stop := some ('3', "Estimate") },
  { key := "Estimate how much you learned in the course",
    startDigit := '3',
    startText := "Estimate how much you learned in the course",
    stop := some ('4', "Rate") },
  { key := "Rate the effectiveness of the course in challenging you intellectually",
    startDigit := '4',
    startText := "Rate the effectiveness of the course in challenging you intellectually",
    stop := some ('5', "Rate") },
  { key := "Rate the effectiveness of the instructor in stimulating your interest in the subject",
    startDigit := '5',
    startText := "Rate the effectiveness of the instructor in stimulating your interest in the subject",
    stop := none } ]

/-- Marker fragment `N\.\s*<lit>` at the current position; returns the
remainder after the literal. -/
def markerAt (d : Char) (lit : List Char) : List Char → Option (List Char)
  | c1 :: c2 :: rest =>
    if c1 = d && c2 = '.' then stripPfx lit (rest.dropWhile pySpace) else none
  | _ => none

/-- Lazy `.*?` under `re.S` up to the first position where the stop-marker
lookahead `(?=M\.\s*<lit>)` matches; fails if the lookahead never matches. -/
def takeUntilStop (d : Char) (lit : List Char) : List Char → Option (List Char)
  | [] => none
  | c :: rest =>
    if (markerAt d lit (c :: rest)).isSome then some []
    else
      match takeUntilStop d lit rest with
      | some tl => some (c :: tl)
      | none => none

/-- One attempt of a question-block regex at the current position: the
matched text (`group(0)`, excluding the lookahead) or `none`. -/
def blockAt (qd : QuestionDef) (cs : List Char) : Option (List Char) :=
  match markerAt qd.startDigit qd.startText.data cs with
  | none => none
  | some rest =>
    let startLen := cs.length - rest.length
    match qd.stop with
    | none => some cs
    | some (d, lit) =>
      match takeUntilStop d lit.data rest with
      | some mid => some (cs.take startLen ++ mid)
      | none => none

def blockSearchAux (qd : QuestionDef) : List Char → Option (List Char)
  | [] => none
  | c :: rest =>
    match blockAt qd (c :: rest) with
    | some b => some b
    | none => blockSearchAux qd rest

/-- `re.search(pattern, ocr_text, flags=re.S).group(0)` for one question. -/
def blockSearch (qd : QuestionDef) (ocr_text : String) : Option String :=
  (blockSearchAux qd ocr_text.data).map String.mk

/-- The per-question successes accumulated by
`_extract_survey_distributions_from_ocr` (insertion order of
`self.survey_questions`). -/
def okEntries (validate : Bool) (fid : String) (ocr_text : String)
    (defs : List QuestionDef) : List (String × RatingDist) :=
  defs.filterMap (fun qd =>
    match blockSearch qd ocr_text with
    | none => none
    | some b =>
      match extract_rating_distribution_from_question validate fid b with
      | .ok d => some (qd.key, d)
      | .error _ => none)

/-- The per-question validation failures collected by the same loop, as
`(question, message)` pairs. -/
def errEntries (validate : Bool) (fid : String) (ocr_text : String)
    (defs : List QuestionDef) : List (String × String) :=
  defs.filterMap (fun qd =>
    match blockSearch qd ocr_text with
    | none => none
    | some b =>
      match extract_rating_distribution_from_question validate fid b with
      | .ok _ => none
      | .error e => some (qd.key, e))

/-- The aggregated error message
`f"OCR validation failed for {n} questions: " + "; ".join(errors)` where each
collected entry reads `f"{question}: {str(e)}"`. -/
def aggMsg (errs : List (String × String)) : String :=
  "OCR validation failed for " ++ toString errs.length ++ " questions: " ++
    String.intercalate "; " (errs.map (fun p => p.1 ++ ": " ++ p.2))

/-- One step of the loop body of `_extract_survey_distributions_from_ocr`. -/
def surveyStep (validate : Bool) (fid : String) (ocr_text : String)
    (acc : List (String × RatingDist) × List (String × String))
    (qd : QuestionDef) : List (String × RatingDist) × List (String × String) :=
  match blockSearch qd ocr_text with
  | none => acc
  | some b =>
    match extract_rating_distribution_from_question validate fid b with
    | .ok d => (acc.1 ++ [(qd.key, d)], acc.2)
    | .error e => (acc.1, acc.2 ++ [(qd.key, e)])

/-- `CTECParser._extract_survey_distributions_from_ocr`. -/
def extract_survey_distributions_from_ocr (validate : Bool) (fid : String)
    (ocr_text : String) : Except String (List (String × RatingDist)) :=
  let st := questionDefs.foldl (surveyStep validate fid ocr_text) ([], [])
  if st.2.isEmpty then .ok st.1 else .error (aggMsg st.2)

/-! ### Demographics and time survey

Label lists from `backend/parser/constants.py` (the module imported as
`.constants` by the parser). -/

def DEPARTMENTS : List String :=
  ["Education & SP", "Communication", "Graduate School", "KGSM", "McCormick",
   "Medill", "Music", "Summer", "SPS", "WCAS"]

def CLASS_YEAR : List String :=
  ["Freshman", "Sophomore", "Junior", "Senior", "Graduate", "Professional",
   "Other"]

def DISTRIBUTION_REQUIREMENT : List String :=
  ["Distribution requirement", "Major/Minor requirement",
   "Elective requirement", "Non-Degree requirement", "No requirement",
   "Other requirement"]

def PRIOR_INTEREST : List String :=
  ["1-Not interested at all", "2", "3", "4", "5", "6-Extremely interested"]

def TIME_RANGES : List String :=
  ["3 or fewer", "4 - 7", "8 - 11", "12 - 15", "16 - 19", "20 or more"]

/-- Distribution keys: Python uses `int` keys for ratings and prior-interest
buckets, strings for the other demographic labels. -/
inductive DKey where
  | nat (n : Nat)
  | str (s : String)
deriving DecidableEq

abbrev Distribution := List (DKey × Nat)

/-- One attempt of `rf"{re.escape(label)}\s+(\d+)\s+[\d.]+%"` at a position:
the escaped label, mandatory whitespace, the captured count, mandatory
whitespace, a run of digits and dots, and `%`. -/
def demoValueAt (label : List Char) (cs : List Char) : Option Nat :=
  match stripPfx label cs with
  | none => none
  | some r0 =>
    match r0 with
    | c0 :: _ =>
      if pySpace c0 then
        let r1 := r0.dropWhile pySpace
        let ds := r1.takeWhile Char.isDigit
        if ds.isEmpty then none
        else
          match r1.drop ds.length with
          | c1 :: _ =>
            if pySpace c1 then
              let r2 := (r1.drop ds.length).dropWhile pySpace
              let frac := r2.takeWhile (fun c => c.isDigit || c = '.')
              if frac.isEmpty then none
              else
                match r2.drop frac.length with
                | '%' :: _ => some (natOfDigits ds)
                | _ => none
            else none
          | [] => none
      else none
    | [] => none

def demoSearchAux (label : List Char) : List Char → Option Nat
  | [] => none
  | c :: rest =>
    match demoValueAt label (c :: rest) with
    | some n => some n
    | none => demoSearchAux label rest

/-- `re.search` of the per-label demographics pattern. -/
def demoSearch (label : String) (text : String) : Option Nat :=
  demoSearchAux label.data text.data

/-- Key remapping for the prior-interest category: the two labelled endpoints
become `1` and `6`, and every all-digit key becomes an `int`. -/
def interestKey (item : String) : DKey :=
  let key := if item = "1-Not interested at all" then "1"
    else if item = "6-Extremely interested" then "6"
    else item
  if key ≠ "" && key.data.all Char.isDigit then .nat (natOfDigits key.data)
  else .str key

def schoolQ : String := "What is the name of your school?"
def classQ : String := "Your Class"
def reasonQ : String := "What is your reason for taking the course? (mark all that apply)"
def interestQ : String := "What was your Interest in this subject before taking the course?"
def timeQ : String :=
  "Estimate the average number of hours per week you spent on this course outside of class and lab time"

/-- Fill one demographic category from a label set. -/
def demoCategory (labels : List String) (toKey : String → DKey)
    (dtext : String) : Distribution :=
  labels.foldl
    (fun d item =>
      match demoSearch item dtext with
      | some n => dInsert d (toKey item) n
      | none => d)
    []

/-- `CTECParser._extract_demographic_distributions`: all four category keys
are present in the result even when their distributions stay empty. -/
def extract_demographic_distributions (text : String) :
    List (String × Distribution) :=
  match findSubIdx text "DEMOGRAPHICS" with
  | none => []
  | some start =>
    let dtext := sliceChars text start text.length
    [(schoolQ, demoCategory DEPARTMENTS .str dtext),
     (classQ, demoCategory CLASS_YEAR .str dtext),
     (reasonQ, demoCategory DISTRIBUTION_REQUIREMENT .str dtext),
     (interestQ, demoCategory PRIOR_INTEREST interestKey dtext)]

/-- `CTECParser._extract_time_survey`.  Note that the end anchor is looked up
from the start of the text, as the source does. -/
def extract_time_survey (text : String) : List (String × Distribution) :=
  match findSubIdx text "TIME-SURVEY QUESTION" with
  | none => []
  | some start =>
    let stop := match findSubIdx text "ESSAY QUESTIONS" with
      | some e => e
      | none =>
        match findSubIdx text "Essay Questions" with
        | some e => e
        | none => text.length
    let ttext := sliceChars text start stop
    [(timeQ, demoCategory TIME_RANGES .str ttext)]

/-! ### Top-level parse -/

/-- `ParserConfig` dataclass (fields that affect the pure logic). -/
structure ParserConfig where
  debug : Bool := false
  ocr_dpi : Nat := 300
  ocr_timeout_seconds : Nat := 30
  validate_ocr_totals : Bool := true
  continue_on_ocr_errors : Bool := false
  extract_comments : Bool := true
  extract_demographics : Bool := true
  extract_time_survey : Bool := true
deriving DecidableEq

/-- `CTECData` dataclass. -/
structure CTECData where
  course_info : CourseInfo
  comments : List String
  survey_responses : List (String × Distribution)
deriving DecidableEq

/-- Lift a rating dictionary into the merged survey map. -/
def liftRating (d : RatingDist) : Distribution :=
  d.map (fun p => (DKey.nat p.1, p.2))

/-- Python `survey_responses.update(other)`. -/
def sUpdate (d e : List (String × Distribution)) :
    List (String × Distribution) :=
  e.foldl (fun acc p => dInsert acc p.1 p.2) d

/-- `CTECParser.parse_ctec`, given the extracted raw text and the
concatenated OCR text of pages 2-3 (the file reading, page rendering and OCR
calls live outside the embedding; `fid` is the path used in messages). -/
def parse_ctec_from_texts (config : ParserConfig) (fid : String)
    (raw_text ocr_text : String) : Except String CTECData :=
  let cleaned_text := clean_text raw_text
  match extract_course_info cleaned_text with
  | .error e => .error e
  | .ok ci0 =>
    match extract_term_info cleaned_text with
    | .error e => .error e
    | .ok qy =>
      let ar := extract_audience_and_response_metadata raw_text
      let ci := { ci0 with quarter := qy.1, year := qy.2,
                           audience_size := ar.1, response_count := ar.2 }
      let comments := if config.extract_comments then extract_comments raw_text else []
      let ratingStage :=
        extract_survey_distributions_from_ocr config.validate_ocr_totals fid ocr_text
      let afterRatings : Except String (List (String × Distribution)) :=
        match ratingStage with
        | .ok rds => .ok (sUpdate [] (rds.map (fun p => (p.1, liftRating p.2))))
        | .error e => if config.continue_on_ocr_errors then .ok [] else .error e
      match afterRatings with
      | .error e => .error e
      | .ok sr0 =>
        let sr1 := if config.extract_demographics then
            sUpdate sr0 (extract_demographic_distributions cleaned_text)
          else sr0
        let sr2 := if config.extract_time_survey then
            sUpdate sr1 (extract_time_survey cleaned_text)
          else sr1
        .ok { course_info := ci, comments := comments, survey_responses := sr2 }

/-! ### Concrete texts used in the theorems below -/

/-- A question block whose bracket-style fallback finds at least three
ratings with a wrong sum while the per-line fallback's sum matches the
printed total. -/
def mixedFallbackBlock : String := "1 (1000)\n2 (5)\n3 (3)\n4 (2)\nTotal (10)"

/-- A question block where the primary pattern finds nothing, the
bracket-style fallback finds fewer than three ratings, and the per-line
fallback's sum matches the printed total. -/
def lineFallbackBlock : String := "1 5\n2 3\n3 2\nTotal (10)"

/-- A question block whose counts cannot be made to match the printed total
by any extraction method. -/
def badTotalBlock : String := "1 (2)\nTotal (9)"

/-- OCR text in which only question 5 has a block and its sum validates. -/
def onlyQ5Ocr : String :=
  "5. Rate the effectiveness of the instructor in stimulating your interest in the subject\n1 (2)\n2 (1)\nTotal (3)\n"

/-- OCR text in which questions 1 and 2 both fail total validation and the
remaining questions have no block. -/
def twoFailuresOcr : String :=
  "1. Provide an overall rating of the instruction\n1 (2)\nTotal (5)\n2. Provide an overall rating of the course\n2 (3)\nTotal (7)\n3. Estimate how much you learned in the course\n1 (4)\nTotal (4)\n"

/-- OCR text in which question 1 fails total validation. -/
def oneFailureOcr : String :=
  "1. Provide an overall rating of the instruction\n1 (2)\nTotal (5)\n2. Provide an overall rating of the course\n"

/-- Raw text with a Form B course header and a term line but no rating,
demographics or comment sections. -/
def basicRaw : String :=
  "Student Report for PHIL_262-0_20: Ethics (Jane Doe)\nCourse and Teacher Evaluations CTEC Spring 2023"

/-- Raw text with a Form B course header and no term information. -/
def noTermRaw : String := "Student Report for ECON_310-0_20: Micro (Jane Doe)"

/-- Cleaned text on which both course-identity forms match at index 0. -/
def bothFormsText : String :=
  "Student Report for Ethics (PHIL_262-0_20: Ethics) (Chad Horne)"

/-- The pattern-2 course header used by the repository's own test suite
(`backend/parser/test_ctec_parser.py`), which expects code
`COMP_SCI_214-0` and an empty section for it. -/
def testSuiteFormB : String :=
  "Student Report for COMP_SCI_214-0: Data Structures & Algorithms (Vincent St Amour)"

/-- Raw text for the audience/response pairing scenario of the claim. -/
def audienceRaw : String := "Courses Audience :\nResponses Received :\n217\n183\n"

/-! ### Helper lemmas -/

theorem surveyStep_foldl (validate : Bool) (fid ocr : String)
    (defs : List QuestionDef) :
    ∀ rs es, defs.foldl (surveyStep validate fid ocr) (rs, es) =
      (rs ++ okEntries validate fid ocr defs,
       es ++ errEntries validate fid ocr defs) := by
  induction defs with
  | nil => intro rs es; simp [okEntries, errEntries]
  | cons qd tl ih =>
    intro rs es
    simp only [List.foldl_cons]
    cases hb : blockSearch qd ocr with
    | none =>
      simp [surveyStep, hb, ih, okEntries, errEntries, List.filterMap_cons]
    | some b =>
      cases he : extract_rating_distribution_from_question validate fid b with
      | ok d =>
        simp [surveyStep, hb, he, ih, okEntries, errEntries, List.filterMap_cons]
      | error e =>
        simp [surveyStep, hb, he, ih, okEntries, errEntries, List.filterMap_cons]

theorem esc_characterization (validate : Bool) (fid ocr : String) :
    extract_survey_distributions_from_ocr validate fid ocr =
      if (errEntries validate fid ocr questionDefs).isEmpty then
        .ok (okEntries validate fid ocr questionDefs)
      else .error (aggMsg (errEntries validate fid ocr questionDefs)) := by
  unfold extract_survey_distributions_from_ocr
  rw [surveyStep_foldl validate fid ocr questionDefs [] []]
  simp only [List.nil_append]

theorem mem_okEntries_iff (validate : Bool) (fid ocr : String) (q : String)
    (d : RatingDist) (defs : List QuestionDef) :
    (q, d) ∈ okEntries validate fid ocr defs ↔
      ∃ qd, qd ∈ defs ∧ qd.key = q ∧ ∃ b, blockSearch qd ocr = some b ∧
        extract_rating_distribution_from_question validate fid b = .ok d := by
  unfold okEntries
  rw [List.mem_filterMap]
  constructor
  · rintro ⟨qd, hqd, hf⟩
    refine ⟨qd, hqd, ?_⟩
    cases hb : blockSearch qd ocr with
    | none => rw [hb] at hf; cases hf
    | some b =>
      rw [hb] at hf
      dsimp only at hf
      cases he : extract_rating_distribution_from_question validate fid b with
      | ok d2 =>
        rw [he] at hf
        cases hf
        exact ⟨rfl, b, rfl, he⟩
      | error e => rw [he] at hf; cases hf
  · rintro ⟨qd, hqd, rfl, b, hb, he⟩
    exact ⟨qd, hqd, by rw [hb]; dsimp only; rw [he]⟩

theorem mem_errEntries_iff (validate : Bool) (fid ocr : String) (q e : String)
    (defs : List QuestionDef) :
    (q, e) ∈ errEntries validate fid ocr defs ↔
      ∃ qd, qd ∈ defs ∧ qd.key = q ∧ ∃ b, blockSearch qd ocr = some b ∧
        extract_rating_distribution_from_question validate fid b = .error e := by
  unfold errEntries
  rw [List.mem_filterMap]
  constructor
  · rintro ⟨qd, hqd, hf⟩
    refine ⟨qd, hqd, ?_⟩
    cases hb : blockSearch qd ocr with
    | none => rw [hb] at hf; cases hf
    | some b =>
      rw [hb] at hf
      dsimp only at hf
      cases he : extract_rating_distribution_from_question validate fid b with
      | ok d2 => rw [he] at hf; cases hf
      | error e2 =>
        rw [he] at hf
        cases hf
        exact ⟨rfl, b, rfl, he⟩
  · rintro ⟨qd, hqd, rfl, b, hb, he⟩
    exact ⟨qd, hqd, by rw [hb]; dsimp only; rw [he]⟩

theorem extract_rating_ok_sum (fid text : String) (t : Nat) (d : RatingDist)
    (ht : searchTotal text = some t)
    (h : extract_rating_distribution_from_question true fid text = .ok d) :
    distSum d = t := by
  unfold extract_rating_distribution_from_question at h
  rw [ht] at h
  simp only [if_true] at h
  split at h
  · split at h
    · split at h
      · cases h
        omega
      · cases h
    · cases h
  · cases h
    omega

theorem extract_rating_mismatch_error (fid text : String) (t : Nat)
    (ht : searchTotal text = some t)
    (hm : distSum (distFromPairs (dist_pattern_findall text)) ≠ t)
    (ha : ∀ alt, try_alternative_distribution_extraction text = some alt →
      distSum alt ≠ t) :
    extract_rating_distribution_from_question true fid text =
      .error (mismatchMsg fid t
        (distSum (distFromPairs (dist_pattern_findall text)))) := by
  unfold extract_rating_distribution_from_question
  rw [ht]
  simp only [if_true]
  rw [if_pos (Ne.symm hm)]
  cases halt : try_alternative_distribution_extraction text with
  | none => rfl
  | some alt =>
    dsimp only
    rw [if_neg (ha alt halt)]

theorem dInsert_mem_key {α β : Type} [DecidableEq α] (d : List (α × β))
    (k : α) (v : β) (k' : α) (v' : β) (h : (k', v') ∈ dInsert d k v) :
    k' = k ∨ ∃ w, (k', w) ∈ d := by
  unfold dInsert at h
  split at h
  · rcases List.mem_map.1 h with ⟨p, hp, hpe⟩
    by_cases hk : p.1 = k
    · rw [if_pos hk] at hpe
      left
      exact (congrArg Prod.fst hpe).symm
    · rw [if_neg hk] at hpe
      right
      exact ⟨v', by rw [← hpe]; exact hp⟩
  · rcases List.mem_append.1 h with h1 | h1
    · right; exact ⟨v', h1⟩
    · left
      have h2 := List.mem_singleton.1 h1
      exact congrArg Prod.fst h2

theorem sUpdate_mem_key (e d : List (String × Distribution)) (k : String)
    (v : Distribution) (h : (k, v) ∈ sUpdate d e) :
    (∃ w, (k, w) ∈ d) ∨ (∃ w, (k, w) ∈ e) := by
  induction e generalizing d with
  | nil => exact Or.inl ⟨v, h⟩
  | cons p tl ih =>
    have h2 : (k, v) ∈ sUpdate (dInsert d p.1 p.2) tl := h
    rcases ih (dInsert d p.1 p.2) h2 with ⟨w, hw⟩ | ⟨w, hw⟩
    · rcases dInsert_mem_key d p.1 p.2 k w hw with hk | ⟨w2, hw2⟩
      · right
        exact ⟨p.2, by rw [hk]; exact List.mem_cons_self _ _⟩
      · left; exact ⟨w2, hw2⟩
    · right; exact ⟨w, List.mem_cons_of_mem _ hw⟩

theorem demo_keys (text : String) (k : String) (w : Distribution)
    (h : (k, w) ∈ extract_demographic_distributions text) :
    k = schoolQ ∨ k = classQ ∨ k = reasonQ ∨ k = interestQ := by
  unfold extract_demographic_distributions at h
  split at h
  · cases h
  · simp only [List.mem_cons, List.not_mem_nil, or_false, Prod.mk.injEq] at h
    rcases h with ⟨h1, _⟩ | ⟨h1, _⟩ | ⟨h1, _⟩ | ⟨h1, _⟩
    · exact Or.inl h1
    · exact Or.inr (Or.inl h1)
    · exact Or.inr (Or.inr (Or.inl h1))
    · exact Or.inr (Or.inr (Or.inr h1))

theorem time_keys (text : String) (k : String) (w : Distribution)
    (h : (k, w) ∈ extract_time_survey text) : k = timeQ := by
  unfold extract_time_survey at h
  split at h
  · cases h
  · simp only [List.mem_cons, List.not_mem_nil, or_false, Prod.mk.injEq] at h
    exact h.1

theorem questionDefs_key_inj (x y : QuestionDef) (hx : x ∈ questionDefs)
    (hy : y ∈ questionDefs) (hk : x.key = y.key) : x = y := by
  simp only [questionDefs, List.mem_cons, List.not_mem_nil, or_false] at hx hy
  rcases hx with rfl | rfl | rfl | rfl | rfl <;>
    rcases hy with rfl | rfl | rfl | rfl | rfl <;>
    first
      | rfl
      | exact absurd hk (by decide)

theorem length_filterMap_lt_of_none {α β : Type} (f : α → Option β)
    (l : List α) (x : α) (hx : x ∈ l) (hfx : f x = none) :
    (l.filterMap f).length < l.length := by
  induction l with
  | nil => cases hx
  | cons a t ih =>
    rcases List.mem_cons.1 hx with rfl | hmem
    · rw [List.filterMap_cons, hfx]
      exact Nat.lt_succ_of_le (List.length_filterMap_le f t)
    · rw [List.filterMap_cons]
      cases hfa : f a with
      | none => exact Nat.lt_succ_of_lt (ih hmem)
      | some b => simpa using Nat.succ_lt_succ (ih hmem)

/-- C8: whenever both course-identity patterns match, the match that starts
earlier in the cleaned text determines the extracted code/title/section/
instructor (a tie keeps Form A, whose start is not greater); when neither
pattern matches anywhere, `_extract_course_info` raises a fatal parsing
error. -/
theorem course_identity_earliest_match (text : String) :
    (∀ s1 a1 b1 c1 s2 a2 b2 c2,
      searchP1 text = some (s1, a1, b1, c1) →
      searchP2 text = some (s2, a2, b2, c2) →
      extract_course_info text =
        if s1 ≤ s2 then processPattern1 a1 b1 c1 else processPattern2 a2 b2 c2) ∧
    (searchP1 text = none → searchP2 text = none →
      ∃ e, extract_course_info text = .error e) := by
  constructor
  · intro s1 a1 b1 c1 s2 a2 b2 c2 h1 h2
    have hne : ¬ text = "" := by
      intro he
      rw [he] at h1
      cases h1
    unfold extract_course_info
    rw [if_neg hne, h1, h2]
  · intro h1 h2
    unfold extract_course_info
    by_cases he : text = ""
    · rw [if_pos he]
      exact ⟨_, rfl⟩
    · rw [if_neg he, h1, h2]
      exact ⟨_, rfl⟩

/-- C8 witness: on `bothFormsText` both patterns match at index 0, and the
extraction is decided by the tie-break on the start positions. -/
theorem course_identity_earliest_match_witness :
    searchP1 bothFormsText = some (0, "Ethics ", "PHIL_262-0_20: Ethics", "Chad Horne") ∧
    searchP2 bothFormsText =
      some (0, "Ethics (PHIL_262-0_20", "Ethics)", "Chad Horne") ∧
    extract_course_info bothFormsText =
      if (0 : Nat) ≤ 0 then processPattern1 "Ethics " "PHIL_262-0_20: Ethics" "Chad Horne"
      else processPattern2 "Ethics (PHIL_262-0_20" "Ethics)" "Chad Horne" :=
  ⟨rfl, rfl,
    (course_identity_earliest_match bothFormsText).1 0 _ _ _ 0 _ _ _ rfl rfl⟩

/-- C3: `_extract_course_info` splits on the last underscore *whenever* the
full course code contains an underscore.  With a genuine section suffix
(`PHIL_262-0_20`) this yields the intended base code and section, but a code
with no section suffix (`COMP_SCI_214-0`, the input of the repository's own
test suite, which expects code `COMP_SCI_214-0` and an empty section) is
split into `COMP_SCI` / `214-0` as well. -/
theorem section_split_code_behavior :
    extract_course_info bothFormsText =
      .ok { code := "PHIL_262-0", title := "Ethics", sect := "20",
            instructor := "Chad Horne", quarter := "", year := 0 } ∧
    extract_course_info testSuiteFormB =
      .ok { code := "COMP_SCI", title := "Data Structures & Algorithms",
            sect := "214-0", instructor := "Vincent St Amour", quarter := "",
            year := 0 } ∧
    splitCodeBySection "COMP_SCI_214-0" ≠ ("COMP_SCI_214-0", "") := by
  refine ⟨rfl, rfl, by decide⟩

/-- C4 counterexample: on `noTermRaw` the term pattern has no match, yet
`parse_ctec` does not continue with quarter and year unset: it aborts with
the parsing error raised by `_extract_term_info`. -/
theorem term_missing_aborts_counterexample :
    searchTerm (clean_text noTermRaw) = none ∧
    extract_term_info (clean_text noTermRaw) =
      .error "Could not extract term information" ∧
    parse_ctec_from_texts {} "f.pdf" noTermRaw "" =
      .error "Could not extract term information" ∧
    ∀ d, parse_ctec_from_texts {} "f.pdf" noTermRaw "" ≠ .ok d := by
  refine ⟨rfl, rfl, rfl, ?_⟩
  intro d h
  rw [show parse_ctec_from_texts {} "f.pdf" noTermRaw "" =
      .error "Could not extract term information" from rfl] at h
  cases h

/-- C4 amended: the Spring 2023 example extracts quarter and year, but a
cleaned text with no term-pattern match is fatal: `_extract_term_info` raises
`CTECParsingError` and `parse_ctec` aborts with it (rather than continuing
with quarter/year unset). -/
theorem term_extraction_fatal :
    extract_term_info "Course and Teacher Evaluations CTEC Spring 2023" =
      .ok ("Spring", 2023) ∧
    (∀ (config : ParserConfig) (fid raw_text ocr_text : String) (ci : CourseInfo),
      extract_course_info (clean_text raw_text) = .ok ci →
      searchTerm (clean_text raw_text) = none →
      parse_ctec_from_texts config fid raw_text ocr_text =
        .error "Could not extract term information") := by
  constructor
  · rfl
  · intro config fid raw_text ocr_text ci hci hterm
    have ht2 : extract_term_info (clean_text raw_text) =
        .error "Could not extract term information" := by
      unfold extract_term_info
      rw [hterm]
    simp only [parse_ctec_from_texts, hci, ht2]

/-- C4 witness: the amended statement applied at `noTermRaw`, whose course
pattern matches while the term pattern does not. -/
theorem term_extraction_fatal_witness :
    extract_term_info "Course and Teacher Evaluations CTEC Spring 2023" =
      .ok ("Spring", 2023) ∧
    parse_ctec_from_texts {} "g.pdf" noTermRaw "" =
      .error "Could not extract term information" :=
  ⟨(term_extraction_fatal).1,
    (term_extraction_fatal).2 {} "g.pdf" noTermRaw ""
      { code := "ECON_310-0", title := "Micro", sect := "20",
        instructor := "Jane Doe", quarter := "", year := 0 }
      rfl rfl⟩

theorem commentStep_foldl_no_upper (ls : List String) :
    ∀ comments cur, (∀ x ∈ ls, lineStartsUpper x = false) →
      ls.foldl commentStep (comments, cur) = (comments, cur ++ ls) := by
  induction ls with
  | nil => intro comments cur _; simp
  | cons l t ih =>
    intro comments cur hup
    have hl : lineStartsUpper l = false := hup l (List.mem_cons_self _ _)
    have hstep : commentStep (comments, cur) l = (comments, cur ++ [l]) := by
      unfold commentStep
      rw [hl]
      simp
    rw [List.foldl_cons, hstep,
      ih (comments) (cur ++ [l]) (fun x hx => hup x (List.mem_cons_of_mem _ hx))]
    simp

theorem commentStep_foldl_all_upper (ls : List String) :
    ∀ comments l, l ≠ "" →
      (∀ x ∈ ls, x ≠ "" ∧ lineStartsUpper x = true) →
      groupFlush (ls.foldl commentStep (comments, [l])) = comments ++ l :: ls := by
  induction ls with
  | nil =>
    intro comments l _ _
    show groupFlush (comments, [l]) = comments ++ [l]
    unfold groupFlush
    simp
    rfl
  | cons x t ih =>
    intro comments l hl hup
    have hx := hup x (List.mem_cons_self _ _)
    have hstep : commentStep (comments, [l]) x =
        (comments ++ [String.intercalate " " [l]], [x]) := by
      unfold commentStep
      rw [hx.2]
      simp [hx.1]
    rw [List.foldl_cons, hstep,
      ih (comments ++ [String.intercalate " " [l]]) x hx.1
        (fun y hy => hup y (List.mem_cons_of_mem _ hy))]
    have hone : String.intercalate " " [l] = l := rfl
    rw [hone]
    simp

/-- C5 amended: within the comment span, a non-empty line starting with an
uppercase letter begins a new comment exactly when an accumulator is already
in progress and every other line is appended to the accumulator — hence a
first line followed only by non-uppercase-starting lines forms one comment,
and all-uppercase-starting lines each form their own comment.  The spec's
example line `"Lowercase wraps."` itself starts with the uppercase letter
`L`, so the example text yields three comments; with a genuinely
lowercase-starting line, the two claimed comments appear. -/
theorem comment_grouping_amended :
    (∀ l ls, (∀ x ∈ ls, lineStartsUpper x = false) →
      groupCommentLines (l :: ls) = [String.intercalate " " (l :: ls)]) ∧
    (∀ lines, (∀ x ∈ lines, x ≠ "" ∧ lineStartsUpper x = true) →
      groupCommentLines lines = lines) ∧
    groupCommentLines
        ["Alpha comment. Beta continues.", "lowercase wraps.", "Gamma starts new."] =
      ["Alpha comment. Beta continues. lowercase wraps.", "Gamma starts new."] ∧
    groupCommentLines
        ["Alpha comment. Beta continues.", "Lowercase wraps.", "Gamma starts new."] =
      ["Alpha comment. Beta continues.", "Lowercase wraps.", "Gamma starts new."] := by
  refine ⟨?_, ?_, rfl, rfl⟩
  · intro l ls hup
    unfold groupCommentLines
    rw [List.foldl_cons]
    have hstep : commentStep ([], []) l = ([], [l]) := by
      unfold commentStep
      simp
    rw [hstep, commentStep_foldl_no_upper ls [] [l] hup]
    simp [groupFlush]
  · intro lines hup
    cases lines with
    | nil => rfl
    | cons l ls =>
      have hl := hup l (List.mem_cons_self _ _)
      unfold groupCommentLines
      rw [List.foldl_cons]
      have hstep : commentStep ([], []) l = ([], [l]) := by
        unfold commentStep
        simp
      rw [hstep]
      have := commentStep_foldl_all_upper ls [] l hl.1
        (fun y hy => hup y (List.mem_cons_of_mem _ hy))
      simpa [groupFlush] using this

/-- C5 witness: the amended rule applied to a genuinely lowercase-starting
continuation and to all-uppercase-starting lines. -/
theorem comment_grouping_amended_witness :
    groupCommentLines ["Alpha comment. Beta continues.", "lowercase wraps."] =
      [String.intercalate " " ["Alpha comment. Beta continues.", "lowercase wraps."]] ∧
    groupCommentLines ["Gamma starts new.", "Delta too."] =
      ["Gamma starts new.", "Delta too."] :=
  ⟨(comment_grouping_amended).1 "Alpha comment. Beta continues."
      ["lowercase wraps."] (by decide),
   (comment_grouping_amended).2.1 ["Gamma starts new.", "Delta too."] (by decide)⟩

/-- C5 counterexample: on the spec's own example lines the extractor yields
three comments, not the two the claim states, because `"Lowercase wraps."`
begins with the uppercase letter `L` and therefore starts a new comment. -/
theorem comment_grouping_counterexample :
    groupCommentLines
        ["Alpha comment. Beta continues.", "Lowercase wraps.", "Gamma starts new."] =
      ["Alpha comment. Beta continues.", "Lowercase wraps.", "Gamma starts new."] ∧
    groupCommentLines
        ["Alpha comment. Beta continues.", "Lowercase wraps.", "Gamma starts new."] ≠
      ["Alpha comment. Beta continues. Lowercase wraps.", "Gamma starts new."] := by
  refine ⟨rfl, ?_⟩
  intro h
  rw [show groupCommentLines
      ["Alpha comment. Beta continues.", "Lowercase wraps.", "Gamma starts new."] =
      ["Alpha comment. Beta continues.", "Lowercase wraps.", "Gamma starts new."]
    from rfl] at h
  exact absurd (congrArg List.length h) (by decide)

/-- C9: when both metadata headers are present, the two integers collected in
the ten-line window after the later header are assigned in header order (the
first integer to the earlier header); a missing header, or fewer than two
collected integers, leaves both fields unset. -/
theorem audience_response_pairing :
    (∀ raw_text a r n1 n2,
      lastIdxSat isAudienceHeader (splitOnNl raw_text) = some a →
      lastIdxSat isResponseHeader (splitOnNl raw_text) = some r →
      a < r →
      windowNums (splitOnNl raw_text) (max a r + 1) = [n1, n2] →
      extract_audience_and_response_metadata raw_text = (some n1, some n2)) ∧
    (∀ raw_text,
      lastIdxSat isAudienceHeader (splitOnNl raw_text) = none ∨
        lastIdxSat isResponseHeader (splitOnNl raw_text) = none →
      extract_audience_and_response_metadata raw_text = (none, none)) ∧
    (∀ raw_text a r,
      lastIdxSat isAudienceHeader (splitOnNl raw_text) = some a →
      lastIdxSat isResponseHeader (splitOnNl raw_text) = some r →
      (windowNums (splitOnNl raw_text) (max a r + 1)).length < 2 →
      extract_audience_and_response_metadata raw_text = (none, none)) := by
  refine ⟨?_, ?_, ?_⟩
  · intro raw_text a r n1 n2 ha hr hlt hw
    unfold extract_audience_and_response_metadata
    dsimp only
    rw [ha, hr]
    dsimp only
    rw [hw]
    dsimp only
    rw [if_pos hlt]
  · intro raw_text h
    unfold extract_audience_and_response_metadata
    dsimp only
    rcases h with h | h
    · rw [h]
    · rw [h]
      cases lastIdxSat isAudienceHeader (splitOnNl raw_text) <;> rfl
  · intro raw_text a r ha hr hlen
    unfold extract_audience_and_response_metadata
    dsimp only
    rw [ha, hr]
    dsimp only
    cases hw : windowNums (splitOnNl raw_text) (max a r + 1) with
    | nil => rfl
    | cons n1 t =>
      cases t with
      | nil => rfl
      | cons n2 t2 =>
        rw [hw] at hlen
        exact absurd hlen (by simp)

/-- C9 witness: the claim's concrete scenario, with the audience header on an
earlier line, yields `audience_size = 217` and `response_count = 183`. -/
theorem audience_response_pairing_witness :
    extract_audience_and_response_metadata audienceRaw = (some 217, some 183) :=
  (audience_response_pairing).1 audienceRaw 0 1 217 183 rfl rfl (by decide) rfl

theorem tryAlt_cases (text : String) :
    try_alternative_distribution_extraction text =
      if 3 ≤ (distFromPairs (alt1Findall text)).length then
        some (distFromPairs (alt1Findall text))
      else if 3 ≤ (alt2Dist text).length then some (alt2Dist text)
      else none := by
  unfold try_alternative_distribution_extraction
  dsimp only
  cases hh : alt1Findall text with
  | nil =>
    simp [distFromPairs]
  | cons a tl =>
    simp only [List.isEmpty_cons, Bool.not_false, if_true]
    by_cases h3 : 3 ≤ (distFromPairs (a :: tl)).length
    · rw [if_pos h3]
      dsimp only
      rw [if_pos h3]
    · rw [if_neg h3]
      dsimp only
      rw [if_neg h3]

/-- C1: with `validate_ocr_totals` enabled, every rating distribution in a
successful result of the OCR rating stage comes from a question block whose
extraction validated, so its sum equals the block's printed total whenever
one was found; and a block whose counts cannot be made to match the printed
total by any extraction method yields a parsing error, which surfaces as a
failure of the whole stage rather than being silently accepted. -/
theorem rating_total_invariant (fid ocr_text : String) :
    (∀ results,
      extract_survey_distributions_from_ocr true fid ocr_text = .ok results →
      ∀ q d, (q, d) ∈ results →
        ∃ qd, qd ∈ questionDefs ∧ qd.key = q ∧
          ∃ b, blockSearch qd ocr_text = some b ∧
            extract_rating_distribution_from_question true fid b = .ok d ∧
            ∀ t, searchTotal b = some t → distSum d = t) ∧
    (∀ text t, searchTotal text = some t →
      distSum (distFromPairs (dist_pattern_findall text)) ≠ t →
      (∀ alt, try_alternative_distribution_extraction text = some alt →
        distSum alt ≠ t) →
      extract_rating_distribution_from_question true fid text =
        .error (mismatchMsg fid t
          (distSum (distFromPairs (dist_pattern_findall text))))) ∧
    (∀ qd b e, qd ∈ questionDefs → blockSearch qd ocr_text = some b →
      extract_rating_distribution_from_question true fid b = .error e →
      ∃ e2, extract_survey_distributions_from_ocr true fid ocr_text = .error e2) := by
  refine ⟨?_, ?_, ?_⟩
  · intro results hok q d hmem
    rw [esc_characterization] at hok
    split at hok
    · cases hok
      rcases (mem_okEntries_iff true fid ocr_text q d questionDefs).1 hmem with
        ⟨qd, hqd, hkey, b, hb, he⟩
      exact ⟨qd, hqd, hkey, b, hb, he,
        fun t ht => extract_rating_ok_sum fid b t d ht he⟩
    · cases hok
  · intro text t ht hm ha
    exact extract_rating_mismatch_error fid text t ht hm ha
  · intro qd b e hqd hb he
    rw [esc_characterization]
    have hmem : (qd.key, e) ∈ errEntries true fid ocr_text questionDefs :=
      (mem_errEntries_iff true fid ocr_text qd.key e questionDefs).2
        ⟨qd, hqd, rfl, b, hb, he⟩
    have hne : ¬ (errEntries true fid ocr_text questionDefs).isEmpty = true := by
      intro hemp
      rw [List.isEmpty_iff] at hemp
      rw [hemp] at hmem
      cases hmem
    rw [if_neg hne]
    exact ⟨_, rfl⟩

/-- C1 witness: a validated block's distribution sums to its printed total,
and a block with no matching extraction is rejected with the mismatch
error. -/
theorem rating_total_invariant_witness :
    (∃ qd, qd ∈ questionDefs ∧
      qd.key = "Rate the effectiveness of the instructor in stimulating your interest in the subject" ∧
      ∃ b, blockSearch qd onlyQ5Ocr = some b ∧
        extract_rating_distribution_from_question true "" b = .ok [(1, 2), (2, 1)] ∧
        ∀ t, searchTotal b = some t → distSum [(1, 2), (2, 1)] = t) ∧
    extract_rating_distribution_from_question true "" badTotalBlock =
      .error (mismatchMsg "" 9
        (distSum (distFromPairs (dist_pattern_findall badTotalBlock)))) := by
  constructor
  · have hok : extract_survey_distributions_from_ocr true "" onlyQ5Ocr =
        .ok [("Rate the effectiveness of the instructor in stimulating your interest in the subject",
              [(1, 2), (2, 1)])] := rfl
    exact (rating_total_invariant "" onlyQ5Ocr).1 _ hok _ _
      (List.mem_singleton.2 rfl)
  · refine (rating_total_invariant "" badTotalBlock).2.1 badTotalBlock 9 rfl
      (by decide) ?_
    intro alt h
    rw [show try_alternative_distribution_extraction badTotalBlock = none from rfl] at h
    cases h

/-- C2 counterexample: on `mixedFallbackBlock` the primary sum (1010)
mismatches the printed total (10) and the per-line fallback's sum equals the
printed total, yet the question's parse raises the mismatch error instead of
returning the second fallback's distribution, because the bracket-style
fallback found at least three ratings and its (mismatching) distribution is
the only one the code considers. -/
theorem fallback_chain_counterexample :
    searchTotal mixedFallbackBlock = some 10 ∧
    3 ≤ (alt2Dist mixedFallbackBlock).length ∧
    distSum (alt2Dist mixedFallbackBlock) = 10 ∧
    extract_rating_distribution_from_question true "" mixedFallbackBlock =
      .error (mismatchMsg "" 10 1010) ∧
    ∀ d, extract_rating_distribution_from_question true "" mixedFallbackBlock ≠
      .ok d := by
  refine ⟨rfl, by decide, rfl, rfl, ?_⟩
  intro d h
  rw [show extract_rating_distribution_from_question true "" mixedFallbackBlock =
      .error (mismatchMsg "" 10 1010) from rfl] at h
  cases h

/-- C2 amended: on a primary-sum mismatch a single alternative distribution
is computed — the bracket-style pattern's if it has at least three ratings,
else the per-line scan's if it has at least three ratings — and it is
accepted exactly when its sum equals the printed total; the per-line fallback
is consulted only when the bracket-style fallback yields fewer than three
ratings, and when neither fallback qualifies the mismatch error is raised. -/
theorem fallback_chain_amended (fid text : String) (t : Nat)
    (ht : searchTotal text = some t)
    (hm : distSum (distFromPairs (dist_pattern_findall text)) ≠ t) :
    (3 ≤ (distFromPairs (alt1Findall text)).length →
      extract_rating_distribution_from_question true fid text =
        if distSum (distFromPairs (alt1Findall text)) = t then
          .ok (distFromPairs (alt1Findall text))
        else .error (mismatchMsg fid t
          (distSum (distFromPairs (dist_pattern_findall text))))) ∧
    ((distFromPairs (alt1Findall text)).length < 3 →
      3 ≤ (alt2Dist text).length →
      extract_rating_distribution_from_question true fid text =
        if distSum (alt2Dist text) = t then .ok (alt2Dist text)
        else .error (mismatchMsg fid t
          (distSum (distFromPairs (dist_pattern_findall text))))) ∧
    ((distFromPairs (alt1Findall text)).length < 3 →
      (alt2Dist text).length < 3 →
      extract_rating_distribution_from_question true fid text =
        .error (mismatchMsg fid t
          (distSum (distFromPairs (dist_pattern_findall text))))) := by
  have hbase : extract_rating_distribution_from_question true fid text =
      (match try_alternative_distribution_extraction text with
       | some alt =>
         if distSum alt = t then .ok alt
         else .error (mismatchMsg fid t
           (distSum (distFromPairs (dist_pattern_findall text))))
       | none => .error (mismatchMsg fid t
           (distSum (distFromPairs (dist_pattern_findall text))))) := by
    unfold extract_rating_distribution_from_question
    rw [ht]
    simp only [if_true]
    rw [if_pos (Ne.symm hm)]
  refine ⟨?_, ?_, ?_⟩
  · intro h3
    rw [hbase, tryAlt_cases, if_pos h3]
  · intro hlt h3
    rw [hbase, tryAlt_cases, if_neg (Nat.not_le.2 hlt), if_pos h3]
  · intro hlt1 hlt2
    rw [hbase, tryAlt_cases, if_neg (Nat.not_le.2 hlt1), if_neg (Nat.not_le.2 hlt2)]

/-- C2 witness: on `lineFallbackBlock` the bracket-style fallback has fewer
than three ratings and the per-line fallback's sum matches the printed
total, so its distribution is accepted. -/
theorem fallback_chain_amended_witness :
    extract_rating_distribution_from_question true "" lineFallbackBlock =
      (if distSum (alt2Dist lineFallbackBlock) = 10 then
        .ok (alt2Dist lineFallbackBlock)
      else .error (mismatchMsg "" 10
        (distSum (distFromPairs (dist_pattern_findall lineFallbackBlock))))) ∧
    extract_rating_distribution_from_question true "" lineFallbackBlock =
      .ok [(1, 5), (2, 3), (3, 2)] :=
  ⟨(fallback_chain_amended "" lineFallbackBlock 10 rfl (by decide)).2.1
      (by decide) (by decide),
   rfl⟩

/-- C6: the OCR rating stage fails with a single combined error exactly when
at least one matched question block fails validation; the combined message is
built from the list of every failing question paired with its mismatch
detail, a failure on one question never prevents a later question from being
recorded, and every collected entry really is a failing question. -/
theorem survey_error_aggregation (fid ocr_text : String) :
    ((∃ e, extract_survey_distributions_from_ocr true fid ocr_text = .error e) ↔
      errEntries true fid ocr_text questionDefs ≠ []) ∧
    (∀ e, extract_survey_distributions_from_ocr true fid ocr_text = .error e →
      e = aggMsg (errEntries true fid ocr_text questionDefs)) ∧
    (∀ qd b err, qd ∈ questionDefs → blockSearch qd ocr_text = some b →
      extract_rating_distribution_from_question true fid b = .error err →
      (qd.key, err) ∈ errEntries true fid ocr_text questionDefs) ∧
    (∀ q err, (q, err) ∈ errEntries true fid ocr_text questionDefs →
      ∃ qd, qd ∈ questionDefs ∧ qd.key = q ∧
        ∃ b, blockSearch qd ocr_text = some b ∧
          extract_rating_distribution_from_question true fid b = .error err) := by
  refine ⟨⟨?_, ?_⟩, ?_, ?_, ?_⟩
  · rintro ⟨e, he⟩ hnil
    rw [esc_characterization] at he
    rw [hnil] at he
    cases he
  · intro hne
    rw [esc_characterization]
    rw [if_neg (fun hemp => hne (List.isEmpty_iff.1 hemp))]
    exact ⟨_, rfl⟩
  · intro e he
    rw [esc_characterization] at he
    split at he
    · cases he
    · cases he
      rfl
  · intro qd b err hqd hb herr
    exact (mem_errEntries_iff true fid ocr_text qd.key err questionDefs).2
      ⟨qd, hqd, rfl, b, hb, herr⟩
  · intro q err hmem
    exact (mem_errEntries_iff true fid ocr_text q err questionDefs).1 hmem

set_option maxRecDepth 100000 in
/-- C6 witness: on `twoFailuresOcr` both matched questions fail validation,
the stage raises one combined error, and the collected failure list holds
exactly the two failing questions with their mismatch details. -/
theorem survey_error_aggregation_witness :
    (∃ e, extract_survey_distributions_from_ocr true "" twoFailuresOcr = .error e) ∧
    (∀ e, extract_survey_distributions_from_ocr true "" twoFailuresOcr = .error e →
      e = aggMsg (errEntries true "" twoFailuresOcr questionDefs)) ∧
    errEntries true "" twoFailuresOcr questionDefs =
      [("Provide an overall rating of the instruction", mismatchMsg "" 5 2),
       ("Provide an overall rating of the course", mismatchMsg "" 7 3)] := by
  have hE : errEntries true "" twoFailuresOcr questionDefs =
      [("Provide an overall rating of the instruction", mismatchMsg "" 5 2),
       ("Provide an overall rating of the course", mismatchMsg "" 7 3)] := rfl
  refine ⟨?_, (survey_error_aggregation "" twoFailuresOcr).2.1, hE⟩
  exact (survey_error_aggregation "" twoFailuresOcr).1.2
    (by rw [hE]; intro h; cases h)

/-- C7: with `continue_on_ocr_errors` enabled, a failing OCR rating stage is
caught and the parse still succeeds; the returned survey responses consist of
the demographics and time-survey distributions only — none of the five
Likert question keys appears — while comments and course information are
produced exactly as in a successful parse. -/
theorem continue_on_ocr_errors_policy
    (config : ParserConfig) (fid raw_text ocr_text : String) (ci : CourseInfo)
    (q : String) (y : Nat) (e : String)
    (hco : config.continue_on_ocr_errors = true)
    (hcm : config.extract_comments = true)
    (hdg : config.extract_demographics = true)
    (hts : config.extract_time_survey = true)
    (hci : extract_course_info (clean_text raw_text) = .ok ci)
    (hterm : extract_term_info (clean_text raw_text) = .ok (q, y))
    (hocr : extract_survey_distributions_from_ocr config.validate_ocr_totals fid
      ocr_text = .error e) :
    parse_ctec_from_texts config fid raw_text ocr_text =
      .ok { course_info :=
              { ci with
                quarter := q
                year := y
                audience_size := (extract_audience_and_response_metadata raw_text).1
                response_count := (extract_audience_and_response_metadata raw_text).2 },
            comments := extract_comments raw_text,
            survey_responses :=
              sUpdate (sUpdate []
                  (extract_demographic_distributions (clean_text raw_text)))
                (extract_time_survey (clean_text raw_text)) } ∧
    (∀ qd v, qd ∈ questionDefs →
      (qd.key, v) ∉
        sUpdate (sUpdate []
            (extract_demographic_distributions (clean_text raw_text)))
          (extract_time_survey (clean_text raw_text))) := by
  constructor
  · simp only [parse_ctec_from_texts, hci, hterm, hocr, hco, hcm, hdg, hts,
      if_true]
  · intro qd v hqd hmem
    rcases sUpdate_mem_key _ _ _ _ hmem with ⟨w, hw⟩ | ⟨w, hw⟩
    · rcases sUpdate_mem_key _ _ _ _ hw with ⟨w2, hw2⟩ | ⟨w2, hw2⟩
      · cases hw2
      · have hk := demo_keys _ _ _ hw2
        simp only [questionDefs, List.mem_cons, List.not_mem_nil, or_false] at hqd
        rcases hqd with rfl | rfl | rfl | rfl | rfl <;>
          rcases hk with hk | hk | hk | hk <;>
          exact absurd hk (by decide)
    · have hk := time_keys _ _ _ hw
      simp only [questionDefs, List.mem_cons, List.not_mem_nil, or_false] at hqd
      rcases hqd with rfl | rfl | rfl | rfl | rfl <;> exact absurd hk (by decide)

/-- C7 witness: on `basicRaw` with the failing `oneFailureOcr` and
`continue_on_ocr_errors` set, the parse succeeds with no rating data while
course info, comments, demographics and time survey are produced as usual. -/
theorem continue_on_ocr_errors_policy_witness :
    parse_ctec_from_texts { continue_on_ocr_errors := true } "f.pdf" basicRaw
        oneFailureOcr =
      .ok { course_info :=
              { code := "PHIL_262-0", title := "Ethics", sect := "20",
                instructor := "Jane Doe", quarter := "Spring", year := 2023,
                audience_size :=
                  (extract_audience_and_response_metadata basicRaw).1,
                response_count :=
                  (extract_audience_and_response_metadata basicRaw).2 },
            comments := extract_comments basicRaw,
            survey_responses :=
              sUpdate (sUpdate []
                  (extract_demographic_distributions (clean_text basicRaw)))
                (extract_time_survey (clean_text basicRaw)) } ∧
    (∀ qd v, qd ∈ questionDefs →
      (qd.key, v) ∉
        sUpdate (sUpdate []
            (extract_demographic_distributions (clean_text basicRaw)))
          (extract_time_survey (clean_text basicRaw))) :=
  continue_on_ocr_errors_policy { continue_on_ocr_errors := true } "f.pdf"
    basicRaw oneFailureOcr
    { code := "PHIL_262-0", title := "Ethics", sect := "20",
      instructor := "Jane Doe", quarter := "", year := 0 }
    "Spring" 2023
    (aggMsg (errEntries true "f.pdf" oneFailureOcr questionDefs))
    rfl rfl rfl rfl rfl rfl rfl

/-- C10: a question whose block regex finds no match in the OCR text is
silently skipped: it contributes no validation error even with
`validate_ocr_totals` enabled and is absent from a successful result, whose
size is then strictly below five. -/
theorem question_block_unmatched_is_omitted (fid ocr_text : String)
    (qd : QuestionDef) (hqd : qd ∈ questionDefs)
    (hn : blockSearch qd ocr_text = none) :
    (∀ err, (qd.key, err) ∉ errEntries true fid ocr_text questionDefs) ∧
    (∀ results,
      extract_survey_distributions_from_ocr true fid ocr_text = .ok results →
      (∀ d, (qd.key, d) ∉ results) ∧ results.length < 5) := by
  constructor
  · intro err hmem
    rcases (mem_errEntries_iff true fid ocr_text qd.key err questionDefs).1 hmem
      with ⟨qd2, hqd2, hkey, b, hb, _⟩
    rw [questionDefs_key_inj qd2 qd hqd2 hqd hkey, hn] at hb
    cases hb
  · intro results hok
    rw [esc_characterization] at hok
    split at hok
    · cases hok
      constructor
      · intro d hmem
        rcases (mem_okEntries_iff true fid ocr_text qd.key d questionDefs).1 hmem
          with ⟨qd2, hqd2, hkey, b, hb, _⟩
        rw [questionDefs_key_inj qd2 qd hqd2 hqd hkey, hn] at hb
        cases hb
      · unfold okEntries
        have hf : (fun qd2 =>
            match blockSearch qd2 ocr_text with
            | none => none
            | some b =>
              match extract_rating_distribution_from_question true fid b with
              | .ok d => some (qd2.key, d)
              | .error _ => none) qd = (none : Option (String × RatingDist)) := by
          dsimp only
          rw [hn]
        exact length_filterMap_lt_of_none _ questionDefs qd hqd hf
    · cases hok

/-- C10 witness: on `onlyQ5Ocr` question 1 has no block, contributes no
error, is absent from the successful result, and the parse returns a single
rating distribution — fewer than five. -/
theorem question_block_unmatched_is_omitted_witness :
    (∀ err, ("Provide an overall rating of the instruction", err) ∉
      errEntries true "" onlyQ5Ocr questionDefs) ∧
    (∀ d, ("Provide an overall rating of the instruction", d) ∉
      ([("Rate the effectiveness of the instructor in stimulating your interest in the subject",
         [(1, 2), (2, 1)])] : List (String × RatingDist))) ∧
    ([("Rate the effectiveness of the instructor in stimulating your interest in the subject",
       [(1, 2), (2, 1)])] : List (String × RatingDist)).length < 5 := by
  have h := question_block_unmatched_is_omitted "" onlyQ5Ocr
    { key := "Provide an overall rating of the instruction",
      startDigit := '1',
      startText := "Provide an overall rating of the instruction",
      stop := some ('2', "Provide") }
    (List.mem_cons_self _ _) rfl
  have h2 := h.2
    [("Rate the effectiveness of the instructor in stimulating your interest in the subject",
      [(1, 2), (2, 1)])] rfl
  exact ⟨h.1, h2.1, h2.2⟩
